import Mathlib

/-!
Verification of the process-pipeline orchestrator `run_pipeline` of
`pve-zfs-utility.py` (lines 160-356), shallowly embedded in Lean.

The embedding models the orchestrator as a deterministic function of an
abstract environment: for each stage we record whether `subprocess.Popen`
succeeds (`spawnOk`), what `proc.communicate(timeout=7200)` does
(`CommEv`), the bytes available on the stage's stderr pipe (`stderrData`),
and the behaviour of the post-wait cleanup (`stillRunningAtCleanup`,
`gracefulStopOk`).  File-system behaviour is captured by `hasSink`
(an `output_file` argument was given; `open(output_file, 'wb')` creates it)
and `unlinkOk` (whether `output_file.unlink()` succeeds).  Observable
side effects (spawns, pipe closes, warnings, error reports, kills) are
collected into an event trace; printed message *text* is abstracted to the
event constructor plus the stage index it reports on.
-/

namespace PveZfsUtility

/-- Exit classification vocabulary of the specification (§3,
`StageOutcome.exitClass`). -/
inductive ExitClass where
  | success
  | nonZeroExit (code : Int)
  | timeout
  | brokenPipe
  | spawnFailure
  | communicationError
deriving DecidableEq, Repr

/-- Behaviour of `proc.communicate(timeout=7200)` for one stage:
it returns normally with an exit code, raises `subprocess.TimeoutExpired`
(in which case `rcAfterKill` is the return code observed after
`proc.kill()`, `None` if still unset), or raises some other exception
(`rcNow` is `proc.returncode` at that moment). -/
inductive CommEv where
  | normal (rc : Int)
  | timeoutExpired (rcAfterKill : Option Int)
  | commError (rcNow : Option Int)
deriving DecidableEq, Repr

/-- One pipeline stage: the command list `cmd` passed to `Popen`
together with the abstract environment describing how the external world
behaves for this stage. -/
structure Stage where
  cmd : List String
  spawnOk : Bool
  comm : CommEv
  stderrData : String
  stillRunningAtCleanup : Bool
  gracefulStopOk : Bool
deriving DecidableEq, Repr

/-- The two ways line 180 (`open(output_file, 'wb')`) could plausibly open
the sink; the code uses `writeTruncate` (mode `'wb'`), the spec demands
`exclusiveCreate` (mode `'xb'`). -/
inductive OpenMode where
  | writeTruncate
  | exclusiveCreate
deriving DecidableEq, Repr

/-- POSIX semantics of the two open modes on a path that may already
exist: `'wb'` always succeeds (truncating), `'xb'` fails iff the file
already exists. -/
def openSucceeds : OpenMode → Bool → Bool
  | .writeTruncate, _ => true
  | .exclusiveCreate, preexists => !preexists

/-- The open mode actually used at line 180: `open(output_file, 'wb')`. -/
def openModeUsed : OpenMode := .writeTruncate

/-- Observable events of one orchestration call, in program order. -/
inductive Ev where
  | warnStepNamesMismatch
  | mkdirParents
  | openSink (mode : OpenMode)
  | spawn (i : Nat)
  | closeFeedPipe (i : Nat)
  | warnSigpipe (i : Nat)
  | errFailedAt (i : Nat)
  | errTimedOutAt (i : Nat)
  | errCommAt (i : Nat)
  | kill (i : Nat)
  | terminate (i : Nat)
  | graceWait (i : Nat)
  | warnKillAfterGrace (i : Nat)
  | closeSink
  | warnIncomplete
  | errTimeoutOverall
  | warnAttemptRemove
  | warnCouldNotRemove
  | errCmdNotFound (i : Nat)
deriving DecidableEq, Repr

/-- Lines 166-167: generated default step names `"Step 1"`, `"Step 2"`, … -/
def defaultStepNames (n : Nat) : List String :=
  (List.range n).map (fun i => "Step " ++ toString (i + 1))

/-- Lines 166-170: `step_names` resolution; a list whose length does not
match the number of commands is discarded in favour of the defaults. -/
def resolveStepNames (n : Nat) : Option (List String) → List String
  | none => defaultStepNames n
  | some ns => if ns.length = n then ns else defaultStepNames n

/-- Line 169: the warning printed when `step_names` has the wrong length. -/
def nameWarnEvs (n : Nat) : Option (List String) → List Ev
  | none => []
  | some ns => if ns.length = n then [] else [Ev.warnStepNamesMismatch]

/-- Destination of a stage's standard output. -/
inductive OutDest where
  | sinkFile
  | pipe
deriving DecidableEq, Repr

/-- Line 185: `stdout_dest = final_output_handle if is_last_command and
final_output_handle else subprocess.PIPE`. -/
def stdoutDest (isLast hasHandle : Bool) : OutDest :=
  if isLast && hasHandle then .sinkFile else .pipe

/-- Lines 187-189: stderr is piped (captured) unless the command is `pv`
or one of the known compressors. -/
def stderrCaptured (cmd : List String) : Bool :=
  !((cmd.headD "" == "pv")
    || ["gzip", "gunzip", "pigz", "unpigz", "zstd", "unzstd"].contains (cmd.headD ""))

/-- Lines 182-218, the launch loop.  Arguments: remaining stages, index of
the next stage, and whether `last_process_stdout` currently holds a pipe
(the parent's handle on the pipe feeding the next stage).  Per iteration:
`Popen` (which may raise `FileNotFoundError`, aborting with the failing
index), then `stdin_source.close()` when a feeding pipe exists
(lines 207-214).  For every stage after the first the previous stage's
stdout was `subprocess.PIPE`, so the handle always exists. -/
def spawnPhase : List Stage → Nat → Bool → List Ev × Option Nat
  | [], _, _ => ([], none)
  | s :: rest, idx, hasPrevPipe =>
    if s.spawnOk then
      let out := spawnPhase rest (idx + 1) true
      (Ev.spawn idx :: ((if hasPrevPipe then [Ev.closeFeedPipe idx] else []) ++ out.1), out.2)
    else ([], some idx)

/-- Per-stage input of the wait loop: whether stderr was piped, the
behaviour of `communicate`, and the stderr bytes available if piped. -/
structure WaitIn where
  captured : Bool
  comm : CommEv
  stderrData : String
deriving DecidableEq, Repr

/-- State accumulated by the wait loop (lines 221-275): events printed,
`return_codes`, `stderr_outputs`, and the `success` / `timed_out` flags. -/
structure WaitOut where
  trace : List Ev
  rcs : List (Option Int)
  stderrs : List String
  success : Bool
  timedOut : Bool
deriving DecidableEq, Repr

/-- The `stderr_content` recorded for a stage: captured data when stderr
was piped and non-empty, otherwise the given fallback. -/
def stderrEntry (w : WaitIn) (fallback : String) : String :=
  if w.captured && (w.stderrData != "") then w.stderrData else fallback

/-- Lines 226-275, the wait loop over `process_info`.  A normal return
with `rc == -13` (SIGPIPE) only prints a warning and leaves `success`
untouched (lines 246-248); any other non-zero return code prints a
failure report and clears `success` (lines 249-253).  A
`TimeoutExpired` kills the process immediately, clears `success`, sets
`timed_out`, and breaks out of the loop (lines 254-269).  Any other
`communicate` exception clears `success` and continues (lines 270-275). -/
def waitLoop : List WaitIn → Nat → WaitOut
  | [], _ => { trace := [], rcs := [], stderrs := [], success := true, timedOut := false }
  | w :: rest, idx =>
    match w.comm with
    | .normal rc =>
      let evs := if rc == 0 then [] else
        if rc == -13 then [Ev.warnSigpipe idx] else [Ev.errFailedAt idx]
      let stepOk : Bool := (rc == 0) || (rc == -13)
      let r := waitLoop rest (idx + 1)
      { trace := evs ++ r.trace, rcs := some rc :: r.rcs,
        stderrs := stderrEntry w "" :: r.stderrs,
        success := stepOk && r.success, timedOut := r.timedOut }
    | .timeoutExpired rck =>
      { trace := [Ev.errTimedOutAt idx, Ev.kill idx],
        rcs := [some (rck.getD (-1))],
        stderrs := [stderrEntry w "Timeout"],
        success := false, timedOut := true }
    | .commError rcNow =>
      let r := waitLoop rest (idx + 1)
      { trace := Ev.errCommAt idx :: r.trace,
        rcs := some (rcNow.getD (-99)) :: r.rcs,
        stderrs := "Communication Error" :: r.stderrs,
        success := false, timedOut := r.timedOut }

/-- Number of stages the wait loop actually processes: all of them, or
everything up to and including the first stage whose `communicate`
times out (the loop `break`s there). -/
def processedCount : List WaitIn → Nat
  | [] => 0
  | w :: rest =>
    match w.comm with
    | .timeoutExpired _ => 1
    | _ => processedCount rest + 1

/-- Index of the first stage whose `communicate` raises
`TimeoutExpired`, if any. -/
def firstTimeout : List WaitIn → Option Nat
  | [] => none
  | w :: rest =>
    match w.comm with
    | .timeoutExpired _ => some 0
    | _ => (firstTimeout rest).map (· + 1)

/-- The return code the wait loop records for a processed stage. -/
def rcFromComm : CommEv → Int
  | .normal rc => rc
  | .timeoutExpired rck => rck.getD (-1)
  | .commError rcNow => rcNow.getD (-99)

/-- Line 279: pad `return_codes` with `None` up to `num_commands`. -/
def padTo (n : Nat) (l : List (Option Int)) : List (Option Int) :=
  l ++ List.replicate (n - l.length) none

/-- Line 280: pad `stderr_outputs` up to `num_commands`. -/
def padStr (n : Nat) (l : List String) : List String :=
  l ++ List.replicate (n - l.length) "Not executed or error"

/-- Line 314: `all(rc == 0 for rc in return_codes if rc is not None)`. -/
def allNonNoneZero (rcs : List (Option Int)) : Bool :=
  rcs.all (fun rc => match rc with | none => true | some r => r == 0)

/-- Line 315: `len([rc for rc in return_codes if rc == 0])`
(in Python, `None == 0` is `False`). -/
def zeroCount (rcs : List (Option Int)) : Nat :=
  (rcs.filter (fun rc => rc == some 0)).length

/-- Lines 312-323: the final success computation. -/
def finalSuccess (success timedOut : Bool) (rcs : List (Option Int)) : Bool :=
  let fs0 := success && allNonNoneZero rcs
  let fs1 := if !timedOut && !(zeroCount rcs == rcs.length) then false else fs0
  if fs1 && timedOut then false else fs1

/-- Lines 284-294 for one process: if it is still running, `terminate()`
then `wait(timeout=5)` (the fixed grace window); if the graceful stop
fails, warn and `kill()`. -/
def cleanupStage (idx : Nat) (running graceful : Bool) : List Ev :=
  if running then
    Ev.terminate idx :: Ev.graceWait idx ::
      (if graceful then [] else [Ev.warnKillAfterGrace idx, Ev.kill idx])
  else []

/-- Lines 283-294, the cleanup loop over `process_info`.  A stage already
processed by the wait loop has exited (its `communicate` returned, or it
was killed on timeout), so only unprocessed stages can still be running. -/
def cleanupLoop : List Stage → Nat → Nat → List Ev
  | [], _, _ => []
  | s :: rest, processed, idx =>
    cleanupStage idx (decide (processed ≤ idx) && s.stillRunningAtCleanup) s.gracefulStopOk
      ++ cleanupLoop rest processed (idx + 1)

/-- Build the wait-loop input of a stage (lines 187-189 and 229). -/
def toWaitIn (s : Stage) : WaitIn :=
  { captured := stderrCaptured s.cmd, comm := s.comm, stderrData := s.stderrData }

/-- Lines 178-180: when an `output_file` is given, create parent
directories and open the sink with mode `'wb'` before any stage spawns. -/
def sinkPreEvs (hasSink : Bool) : List Ev :=
  if hasSink then [Ev.mkdirParents, Ev.openSink OpenMode.writeTruncate] else []

/-- Everything observable about one orchestration call: the returned
boolean, the event trace, the internal padded per-stage lists, whether
the sink file exists after the call, and the step names used. -/
structure RunResult where
  success : Bool
  trace : List Ev
  returnCodes : List (Option Int)
  stderrOutputs : List String
  fileExistsAfter : Bool
  stepNamesUsed : List String
deriving DecidableEq, Repr

/-- Lines 160-356: the whole orchestrator.  On a `FileNotFoundError`
from `Popen` (lines 333-344) every launched process is killed, the sink
handle is closed and the partial file removed with any `OSError`
silently ignored, and bare `False` is returned with no per-stage lists.
On the normal path the wait loop runs, lists are padded, still-running
processes are cleaned up, the final success is computed, and on failure
the sink file is removed with a warning if the removal fails
(lines 325-329). -/
def run_pipeline (stages : List Stage) (stepNames : Option (List String))
    (pvOptions : Option (List String)) (hasSink : Bool) (unlinkOk : Bool) : RunResult :=
  let n := stages.length
  let names := resolveStepNames n stepNames
  let warnEvs := nameWarnEvs n stepNames
  let sp := spawnPhase stages 0 false
  match sp.2 with
  | some j =>
    { success := false,
      trace := warnEvs ++ (sinkPreEvs hasSink ++ (sp.1 ++
        (Ev.errCmdNotFound j :: ((List.range j).map Ev.kill
          ++ (if hasSink then [Ev.closeSink] else []))))),
      returnCodes := [], stderrOutputs := [],
      fileExistsAfter := hasSink && !unlinkOk,
      stepNamesUsed := names }
  | none =>
    let ins := stages.map toWaitIn
    let w := waitLoop ins 0
    let rcs := padTo n w.rcs
    let stderrs := padStr n w.stderrs
    let fs := finalSuccess w.success w.timedOut rcs
    let cl := cleanupLoop stages (processedCount ins) 0
    let sinkClose := if hasSink then [Ev.closeSink] else []
    let noteEvs := if !fs then [Ev.warnIncomplete]
      else if w.timedOut then [Ev.errTimeoutOverall] else []
    let unlinkEvs := if !fs && hasSink then
        (if unlinkOk then [Ev.warnAttemptRemove]
         else [Ev.warnAttemptRemove, Ev.warnCouldNotRemove])
      else []
    { success := fs,
      trace := warnEvs ++ (sinkPreEvs hasSink ++ (sp.1 ++
        (w.trace ++ (cl ++ (sinkClose ++ (noteEvs ++ unlinkEvs)))))),
      returnCodes := rcs, stderrOutputs := stderrs,
      fileExistsAfter := hasSink && (fs || !unlinkOk),
      stepNamesUsed := names }

/-- Modelled from the spec (§4.4): the failure-classification policy.
Scanning from the downstream end, for each stage it returns the list of
per-stage collateral flags and whether the stages seen so far contain a
non-`Success`, non-collateral ("real") failure.  A stage is collateral
iff its class is `BrokenPipe` and some downstream stage is a real
failure. -/
def specScan : List ExitClass → List Bool × Bool
  | [] => ([], false)
  | c :: rest =>
    let r := specScan rest
    let isColl := (c == ExitClass.brokenPipe) && r.2
    (isColl :: r.1, r.2 || ((c != ExitClass.success) && !isColl))

/-- Per-stage collateral flags of the spec's §4.4 policy. -/
def specCollateralFlags (l : List ExitClass) : List Bool := (specScan l).1

/-- Whether the spec's §4.4 policy finds any real (non-`Success`,
non-collateral) failure. -/
def specHasRealFailure (l : List ExitClass) : Bool := (specScan l).2

/-- The spec's success condition as worded in the claim: every outcome is
`Success`, or is `BrokenPipe` classified as collateral per §4.4. -/
def allSuccessOrCollateral (l : List ExitClass) : Bool :=
  (l.zip (specCollateralFlags l)).all (fun p => (p.1 == ExitClass.success) || p.2)

/-- Modelled from the spec (§4.4 step 2): the `primaryFailure` is the
lowest-index stage whose outcome is non-`Success` and not collateral. -/
def specPrimaryFailure (l : List ExitClass) : Option Nat :=
  (l.zip (specCollateralFlags l)).findIdx? (fun p => (p.1 != ExitClass.success) && !p.2)

/-- Map the behaviour of `communicate` to the spec's exit classes:
exit code 0 is `Success`, −13 (SIGPIPE) is `BrokenPipe`, any other code
is `NonZeroExit`; a timeout is `Timeout` and a `communicate` exception is
`CommunicationError`. -/
def classOfComm : CommEv → ExitClass
  | .normal rc => if rc == 0 then .success else
      if rc == -13 then .brokenPipe else .nonZeroExit rc
  | .timeoutExpired _ => .timeout
  | .commError _ => .communicationError

/-- `communicate` returned normally. -/
def isNormalComm : CommEv → Bool
  | .normal _ => true
  | _ => false

/-- The stage died of SIGPIPE (`rc == -13`). -/
def isSigpipeComm : CommEv → Bool
  | .normal rc => rc == -13
  | _ => false

/-- The stage exited with a non-zero, non-SIGPIPE code. -/
def isHardFailComm : CommEv → Bool
  | .normal rc => !(rc == 0) && !(rc == -13)
  | _ => false

/-! ## Lemmas about the wait loop and the final success computation -/

theorem specScan_snd_eq (l : List ExitClass) :
    (specScan l).2 = !(l.all (· == ExitClass.success)) := by
  induction l with
  | nil => rfl
  | cons c rest ih =>
    have hstep : (specScan (c :: rest)).2
        = ((specScan rest).2
          || ((c != ExitClass.success)
            && !((c == ExitClass.brokenPipe) && (specScan rest).2))) := rfl
    rw [hstep, ih, List.all_cons]
    cases h : rest.all (· == ExitClass.success) <;> cases c <;> simp [bne]

theorem specHasRealFailure_eq_not_all (l : List ExitClass) :
    specHasRealFailure l = !(l.all (· == ExitClass.success)) :=
  specScan_snd_eq l

theorem allSuccessOrCollateral_eq_all (l : List ExitClass) :
    allSuccessOrCollateral l = l.all (· == ExitClass.success) := by
  induction l with
  | nil => rfl
  | cons c rest ih =>
    have hstep : allSuccessOrCollateral (c :: rest)
        = (((c == ExitClass.success) || ((c == ExitClass.brokenPipe) && (specScan rest).2))
          && allSuccessOrCollateral rest) := by
      simp only [allSuccessOrCollateral, specCollateralFlags, specScan, List.zip_cons_cons,
        List.all_cons]
    rw [hstep, ih, specScan_snd_eq, List.all_cons]
    cases h : rest.all (· == ExitClass.success) <;> cases c <;> simp

theorem zeroCount_eq_length_iff (l : List (Option Int)) :
    zeroCount l = l.length ↔ l.all (· == some 0) = true := by
  induction l with
  | nil => simp [zeroCount]
  | cons a rest ih =>
    have hle : (rest.filter (fun rc => rc == some 0)).length ≤ rest.length :=
      List.length_filter_le _ _
    simp only [zeroCount] at ih
    cases hx : (a == some 0) with
    | true =>
      have hfilter : (a :: rest).filter (fun rc => rc == some 0)
          = a :: rest.filter (fun rc => rc == some 0) := by
        simp [List.filter_cons, hx]
      simp only [zeroCount, hfilter, List.length_cons, List.all_cons, hx, Bool.true_and]
      constructor
      · intro hlen
        exact ih.mp (by omega)
      · intro hall
        rw [ih.mpr hall]
    | false =>
      have hfilter : (a :: rest).filter (fun rc => rc == some 0)
          = rest.filter (fun rc => rc == some 0) := by
        simp [List.filter_cons, hx]
      simp only [zeroCount, hfilter, List.length_cons, List.all_cons, hx, Bool.false_and]
      constructor
      · intro hlen
        exact absurd hlen (by omega)
      · intro hfalse
        exact absurd hfalse (by simp)

theorem allNonNoneZero_of_all_zero (l : List (Option Int))
    (h : l.all (· == some 0) = true) : allNonNoneZero l = true := by
  induction l with
  | nil => rfl
  | cons a rest ih =>
    simp only [List.all_cons, Bool.and_eq_true] at h
    have ha : a = some 0 := by
      cases a with
      | none => exact absurd h.1 (by simp)
      | some v =>
        have := h.1
        simp only [beq_iff_eq, Option.some.injEq] at this
        rw [this]
    subst ha
    simp only [allNonNoneZero, List.all_cons] at *
    simp [ih h.2]

theorem finalSuccess_char (s t : Bool) (l : List (Option Int)) :
    finalSuccess s t l = (s && !t && l.all (· == some 0)) := by
  unfold finalSuccess
  cases t with
  | true =>
    cases hX : (s && allNonNoneZero l) <;> simp [hX]
  | false =>
    by_cases h : l.all (· == some 0) = true
    · have hz : zeroCount l = l.length := (zeroCount_eq_length_iff l).mpr h
      simp [hz, h, allNonNoneZero_of_all_zero l h]
    · have hz : ¬ zeroCount l = l.length := fun hc => h ((zeroCount_eq_length_iff l).mp hc)
      have hb : (l.all (· == some 0)) = false := by
        cases hb : l.all (· == some 0)
        · rfl
        · exact absurd hb h
      simp [hz, hb]

theorem padTo_cons (n : Nat) (x : Option Int) (l : List (Option Int)) :
    padTo (n + 1) (x :: l) = x :: padTo n l := by
  simp [padTo, Nat.succ_sub_succ]

theorem commEv_beq_normal_zero (c : CommEv) :
    ((c == CommEv.normal 0) : Bool)
      = (match c with | .normal rc => ((rc == 0) : Bool) | _ => false) := by
  cases c with
  | normal rc =>
    by_cases h : rc = 0
    · subst h
      rfl
    · have h1 : ((CommEv.normal rc == CommEv.normal 0) : Bool) = false := by
        simp [h]
      have h2 : ((rc == (0:Int)) : Bool) = false := by
        simp [h]
      simp only [h1, h2]
  | timeoutExpired rck => rfl
  | commError rcNow => rfl

/-- The final success computation of lines 312-323, applied to the
outputs of the wait loop, is `true` exactly when every stage's
`communicate` returned normally with exit code 0.  In particular a
SIGPIPE (`rc == -13`), although treated leniently inside the loop,
still makes the final result `false` via the all-zero checks. -/
theorem waitLoop_final_eq (ins : List WaitIn) (idx : Nat) :
    finalSuccess (waitLoop ins idx).success (waitLoop ins idx).timedOut
      (padTo ins.length (waitLoop ins idx).rcs)
    = ins.all (fun w => w.comm == CommEv.normal 0) := by
  rw [finalSuccess_char]
  induction ins generalizing idx with
  | nil => rfl
  | cons w rest ih =>
    rcases w with ⟨cap, comm, sd⟩
    cases comm with
    | normal rc =>
      have hrec :
          ((waitLoop (⟨cap, CommEv.normal rc, sd⟩ :: rest) idx).success
            && !(waitLoop (⟨cap, CommEv.normal rc, sd⟩ :: rest) idx).timedOut
            && (padTo (⟨cap, CommEv.normal rc, sd⟩ :: rest).length
                (waitLoop (⟨cap, CommEv.normal rc, sd⟩ :: rest) idx).rcs).all (· == some 0))
          = ((((rc == 0) || (rc == -13)) && (waitLoop rest (idx + 1)).success)
            && !(waitLoop rest (idx + 1)).timedOut
            && (((rc == 0) : Bool)
              && (padTo rest.length (waitLoop rest (idx + 1)).rcs).all (· == some 0))) := by
        simp only [waitLoop, List.length_cons, padTo_cons, List.all_cons,
          show ∀ x : Int, ((some x == some (0:Int)) : Bool) = (x == 0) from fun _ => rfl]
      rw [hrec, List.all_cons, commEv_beq_normal_zero]
      by_cases h : rc = 0
      · subst h
        simp only [show (((0:Int) == (0:Int)) : Bool) = true from rfl, Bool.true_or,
          Bool.true_and]
        rw [ih (idx + 1)]
      · have h2 : ((rc == (0:Int)) : Bool) = false := by simp [h]
        simp [h2]
    | timeoutExpired rck =>
      have hrec :
          ((waitLoop (⟨cap, CommEv.timeoutExpired rck, sd⟩ :: rest) idx).success
            && !(waitLoop (⟨cap, CommEv.timeoutExpired rck, sd⟩ :: rest) idx).timedOut
            && (padTo (⟨cap, CommEv.timeoutExpired rck, sd⟩ :: rest).length
                (waitLoop (⟨cap, CommEv.timeoutExpired rck, sd⟩ :: rest) idx).rcs).all
                  (· == some 0))
          = false := by
        simp [waitLoop]
      rw [hrec, List.all_cons, commEv_beq_normal_zero]
      rfl
    | commError rcNow =>
      have hrec :
          ((waitLoop (⟨cap, CommEv.commError rcNow, sd⟩ :: rest) idx).success
            && !(waitLoop (⟨cap, CommEv.commError rcNow, sd⟩ :: rest) idx).timedOut
            && (padTo (⟨cap, CommEv.commError rcNow, sd⟩ :: rest).length
                (waitLoop (⟨cap, CommEv.commError rcNow, sd⟩ :: rest) idx).rcs).all
                  (· == some 0))
          = false := by
        simp [waitLoop]
      rw [hrec, List.all_cons, commEv_beq_normal_zero]
      rfl

theorem spawnPhase_snd_none_iff (stages : List Stage) (idx : Nat) (hp : Bool) :
    (spawnPhase stages idx hp).2 = none ↔ stages.all (·.spawnOk) = true := by
  induction stages generalizing idx hp with
  | nil => simp [spawnPhase]
  | cons s rest ih =>
    by_cases h : s.spawnOk = true
    · simp only [spawnPhase, h, if_true, List.all_cons, Bool.and_eq_true, true_and]
      exact ih (idx + 1) true
    · simp [spawnPhase, h]

/-- The boolean returned by `run_pipeline`: `True` exactly when every
stage spawned and every stage's `communicate` returned exit code 0.
Any `FileNotFoundError`, non-zero exit code (including SIGPIPE's −13),
timeout or `communicate` exception yields `False`. -/
theorem run_success_eq (stages : List Stage) (stepNames : Option (List String))
    (pvOptions : Option (List String)) (hasSink unlinkOk : Bool) :
    (run_pipeline stages stepNames pvOptions hasSink unlinkOk).success
    = (stages.all (·.spawnOk) && stages.all (fun s => s.comm == CommEv.normal 0)) := by
  cases hsp : (spawnPhase stages 0 false).2 with
  | some j =>
    have hne : ¬ stages.all (·.spawnOk) = true := by
      intro hall
      rw [← spawnPhase_snd_none_iff stages 0 false, hsp] at hall
      cases hall
    have hall : stages.all (·.spawnOk) = false := by
      cases hx : stages.all (·.spawnOk) with
      | false => rfl
      | true => exact absurd hx hne
    simp only [run_pipeline, hsp, hall, Bool.false_and]
  | none =>
    have hall : stages.all (·.spawnOk) = true :=
      (spawnPhase_snd_none_iff stages 0 false).mp hsp
    have hlen : (stages.map toWaitIn).length = stages.length := by simp
    simp only [run_pipeline, hsp, hall, Bool.true_and]
    rw [← hlen, waitLoop_final_eq]
    clear hsp hall hlen
    induction stages with
    | nil => rfl
    | cons s rest ih => simp only [List.map_cons, List.all_cons, ih, toWaitIn]

theorem classOfComm_beq_success (c : CommEv) :
    ((classOfComm c == ExitClass.success) : Bool) = (c == CommEv.normal 0) := by
  rw [commEv_beq_normal_zero]
  cases c with
  | normal rc =>
    by_cases h : rc = 0
    · subst h
      rfl
    · have h2 : ((rc == (0:Int)) : Bool) = false := by simp [h]
      by_cases h13 : rc = -13
      · subst h13
        rfl
      · have h13b : ((rc == (-13:Int)) : Bool) = false := by simp [h13]
        have hnz : ((ExitClass.nonZeroExit rc == ExitClass.success) : Bool) = false := by
          cases hx : ((ExitClass.nonZeroExit rc == ExitClass.success) : Bool) with
          | false => rfl
          | true => exact absurd (eq_of_beq hx) (by simp)
        simp only [classOfComm, h2, h13b, Bool.false_eq_true, if_false, hnz]
  | timeoutExpired rck => rfl
  | commError rcNow => rfl

theorem map_classOfComm_all_success (stages : List Stage) :
    (stages.map (fun s => classOfComm s.comm)).all (· == ExitClass.success)
    = stages.all (fun s => s.comm == CommEv.normal 0) := by
  induction stages with
  | nil => rfl
  | cons s rest ih => simp only [List.map_cons, List.all_cons, ih, classOfComm_beq_success]

/-- Claim C1: for every pipeline run in which all stages launch, the
returned success value is `true` iff every stage's outcome is `Success`,
or is `BrokenPipe` classified as collateral by the §4.4 policy.  (By
`allSuccessOrCollateral_eq_all` the spec-side condition collapses to
"every outcome is `Success`", because a collateral `BrokenPipe` requires
a downstream real failure, which itself violates the condition; the code
agrees: its final check accepts exactly the all-zero-exit-code runs.
Runs aborted by a spawn failure return `False` and build no outcome
list, cf. C5.)  In particular, if every stage exits with code 0 the
result is `true`, for any pipeline length. -/
theorem c1_success_iff_all_success_or_collateral (stages : List Stage)
    (stepNames pvOptions : Option (List String)) (hasSink unlinkOk : Bool)
    (h : stages.all (·.spawnOk) = true) :
    (run_pipeline stages stepNames pvOptions hasSink unlinkOk).success = true
    ↔ allSuccessOrCollateral (stages.map (fun s => classOfComm s.comm)) = true := by
  rw [run_success_eq, allSuccessOrCollateral_eq_all, h, Bool.true_and,
    map_classOfComm_all_success]

/-- Witness for C1 at a concrete two-stage all-zero pipeline. -/
theorem c1_witness :
    ([(⟨["zfs", "send"], true, CommEv.normal 0, "", false, true⟩ : Stage),
      ⟨["zfs", "recv"], true, CommEv.normal 0, "", false, true⟩].all (·.spawnOk) = true)
    ∧ ((run_pipeline
        [⟨["zfs", "send"], true, CommEv.normal 0, "", false, true⟩,
         ⟨["zfs", "recv"], true, CommEv.normal 0, "", false, true⟩]
        none none false true).success = true
      ↔ allSuccessOrCollateral
          (([(⟨["zfs", "send"], true, CommEv.normal 0, "", false, true⟩ : Stage),
            ⟨["zfs", "recv"], true, CommEv.normal 0, "", false, true⟩]).map
            (fun s => classOfComm s.comm)) = true) :=
  ⟨by decide,
   c1_success_iff_all_success_or_collateral _ none none false true (by decide)⟩

/-- Claim C3 counterexample: on the empty stage list the orchestrator
does not reject the pipeline; it runs to completion and returns success
`true` (and when an output file was requested, even creates and keeps
the empty sink file). -/
theorem c3_counterexample :
    (run_pipeline [] none none true true).success = true
    ∧ (run_pipeline [] none none true true).fileExistsAfter = true := by
  decide

/-- Claim C3 as amended: a pipeline with zero stages is not rejected
with a `ConfigurationError`; `run_pipeline` accepts it and returns the
vacuous success `true`, whatever the remaining arguments are. -/
theorem c3_empty_pipeline_returns_success (stepNames pvOptions : Option (List String))
    (hasSink unlinkOk : Bool) :
    (run_pipeline [] stepNames pvOptions hasSink unlinkOk).success = true := by
  rw [run_success_eq]
  rfl

/-- A producer → `pv` (monitor) → consumer pipeline in which only the
`pv` stage fails (exit code 1). -/
def monitorFailStages : List Stage :=
  [⟨["zfs", "send"], true, CommEv.normal 0, "", false, true⟩,
   ⟨["pv"], true, CommEv.normal 1, "", false, true⟩,
   ⟨["zfs", "recv"], true, CommEv.normal 0, "", false, true⟩]

/-- The same three stages with the commands relabeled so that no stage
is a `pv` (monitor) stage, with identical spawn/exit behaviour. -/
def monitorFailStagesRelabeled : List Stage :=
  [⟨["cat"], true, CommEv.normal 0, "", false, true⟩,
   ⟨["cat"], true, CommEv.normal 1, "", false, true⟩,
   ⟨["cat"], true, CommEv.normal 0, "", false, true⟩]

/-- Claim C9 counterexample: in a 3-stage run whose only non-`Success`
outcome belongs to the `pv` (role `monitor`) stage, the pipeline is
unsuccessful — the monitor stage's outcome alone makes `success` false. -/
theorem c9_counterexample :
    (monitorFailStages.map (fun s => s.cmd.headD "")) = ["zfs", "pv", "zfs"]
    ∧ (monitorFailStages.map (fun s => classOfComm s.comm))
        = [ExitClass.success, ExitClass.nonZeroExit 1, ExitClass.success]
    ∧ (run_pipeline monitorFailStages none none false true).success = false := by
  decide

/-- Claim C9 as amended: a `monitor`-role (`pv`) stage is treated
exactly like a `data` stage in the success evaluation — the returned
success value depends only on each stage's spawn result and
`communicate` behaviour, never on the command (hence never on the
role); consequently a monitor stage's non-zero exit alone makes the
pipeline unsuccessful.  (The role affects only stderr capture and
`pv_options` injection.) -/
theorem c9_success_ignores_role (stages stagesR : List Stage)
    (stepNames stepNamesR pvOptions pvOptionsR : Option (List String))
    (hasSink unlinkOk : Bool)
    (h : stages.map (fun s => (s.spawnOk, s.comm))
        = stagesR.map (fun s => (s.spawnOk, s.comm))) :
    (run_pipeline stages stepNames pvOptions hasSink unlinkOk).success
    = (run_pipeline stagesR stepNamesR pvOptionsR hasSink unlinkOk).success := by
  rw [run_success_eq, run_success_eq]
  have hov : ∀ l : List Stage,
      l.all (·.spawnOk) = (l.map (fun s => (s.spawnOk, s.comm))).all (·.1) := by
    intro l
    induction l with
    | nil => rfl
    | cons s rest ih => simp only [List.map_cons, List.all_cons, ih]
  have hcv : ∀ l : List Stage,
      l.all (fun s => s.comm == CommEv.normal 0)
        = (l.map (fun s => (s.spawnOk, s.comm))).all (fun p => p.2 == CommEv.normal 0) := by
    intro l
    induction l with
    | nil => rfl
    | cons s rest ih => simp only [List.map_cons, List.all_cons, ih]
  rw [hov, hcv, h, ← hov, ← hcv]

/-- Witness for C9: relabeling the commands of the concrete 3-stage
pipeline (so the failing stage is no longer a monitor) leaves the
returned success value unchanged. -/
theorem c9_witness :
    (monitorFailStages.map (fun s => (s.spawnOk, s.comm))
      = monitorFailStagesRelabeled.map (fun s => (s.spawnOk, s.comm)))
    ∧ ((run_pipeline monitorFailStages none none false true).success
      = (run_pipeline monitorFailStagesRelabeled (some ["a", "b", "c"]) (some ["-petab"])
          false true).success) :=
  ⟨by decide,
   c9_success_ignores_role _ _ _ _ _ _ _ _ (by decide)⟩

/-- Claim C10: when the provided `step_names` list has a different
length than the command list, the orchestrator does not fail: it prints
a warning, discards the provided names in favour of the generated
defaults `"Step 1"`, `"Step 2"`, …, and otherwise behaves exactly as if
no names had been provided. -/
theorem c10_step_names_mismatch_uses_defaults (stages : List Stage) (names : List String)
    (pvOptions : Option (List String)) (hasSink unlinkOk : Bool)
    (h : names.length ≠ stages.length) :
    (run_pipeline stages (some names) pvOptions hasSink unlinkOk).stepNamesUsed
      = defaultStepNames stages.length
    ∧ (run_pipeline stages (some names) pvOptions hasSink unlinkOk).success
      = (run_pipeline stages none pvOptions hasSink unlinkOk).success
    ∧ (run_pipeline stages (some names) pvOptions hasSink unlinkOk).returnCodes
      = (run_pipeline stages none pvOptions hasSink unlinkOk).returnCodes
    ∧ (run_pipeline stages (some names) pvOptions hasSink unlinkOk).stderrOutputs
      = (run_pipeline stages none pvOptions hasSink unlinkOk).stderrOutputs
    ∧ (run_pipeline stages (some names) pvOptions hasSink unlinkOk).fileExistsAfter
      = (run_pipeline stages none pvOptions hasSink unlinkOk).fileExistsAfter
    ∧ (run_pipeline stages (some names) pvOptions hasSink unlinkOk).trace
      = Ev.warnStepNamesMismatch :: (run_pipeline stages none pvOptions hasSink unlinkOk).trace := by
  have hres : resolveStepNames stages.length (some names) = defaultStepNames stages.length := by
    simp [resolveStepNames, h]
  have hwarn : nameWarnEvs stages.length (some names) = [Ev.warnStepNamesMismatch] := by
    simp [nameWarnEvs, h]
  unfold run_pipeline
  cases hsp : (spawnPhase stages 0 false).2 <;>
    simp [hsp, hres, hwarn, h, resolveStepNames, nameWarnEvs]

/-- Witness for C10 at a concrete input: two stages, one provided name. -/
theorem c10_witness :
    (["only-name"].length ≠
      ([(⟨["zfs", "send"], true, CommEv.normal 0, "", false, true⟩ : Stage),
        ⟨["zfs", "recv"], true, CommEv.normal 0, "", false, true⟩]).length)
    ∧ ((run_pipeline
          [⟨["zfs", "send"], true, CommEv.normal 0, "", false, true⟩,
           ⟨["zfs", "recv"], true, CommEv.normal 0, "", false, true⟩]
          (some ["only-name"]) none false true).stepNamesUsed
        = defaultStepNames 2) :=
  ⟨by decide,
   (c10_step_names_mismatch_uses_defaults _ _ none false true (by decide)).1⟩

theorem spawnPhase_adjacent_close (stages : List Stage) (idx : Nat) (i : Nat)
    (h : Ev.spawn i ∈ (spawnPhase stages idx true).1) :
    ∃ pre post, (spawnPhase stages idx true).1
      = pre ++ Ev.spawn i :: Ev.closeFeedPipe i :: post := by
  induction stages generalizing idx with
  | nil => cases h
  | cons s rest ih =>
    by_cases hs : s.spawnOk = true
    · have htr : (spawnPhase (s :: rest) idx true).1
          = Ev.spawn idx :: Ev.closeFeedPipe idx :: (spawnPhase rest (idx + 1) true).1 := by
        simp [spawnPhase, hs]
      rw [htr] at h ⊢
      by_cases hi : i = idx
      · subst hi
        exact ⟨[], (spawnPhase rest (i + 1) true).1, rfl⟩
      · have hmem : Ev.spawn i ∈ (spawnPhase rest (idx + 1) true).1 := by
          rcases List.mem_cons.mp h with hx | hx
          · simp only [Ev.spawn.injEq] at hx
            exact absurd hx hi
          · rcases List.mem_cons.mp hx with hy | hy
            · simp at hy
            · exact hy
        obtain ⟨pre, post, hp⟩ := ih (idx + 1) hmem
        exact ⟨Ev.spawn idx :: Ev.closeFeedPipe idx :: pre, post, by simp [hp]⟩
    · have htr : (spawnPhase (s :: rest) idx true).1 = [] := by simp [spawnPhase, hs]
      rw [htr] at h
      cases h

theorem spawnPhase_top_close (stages : List Stage) (i : Nat)
    (h1 : 1 ≤ i) (h2 : Ev.spawn i ∈ (spawnPhase stages 0 false).1) :
    ∃ pre post, (spawnPhase stages 0 false).1
      = pre ++ Ev.spawn i :: Ev.closeFeedPipe i :: post := by
  cases stages with
  | nil => cases h2
  | cons s rest =>
    by_cases hs : s.spawnOk = true
    · have htr : (spawnPhase (s :: rest) 0 false).1
          = Ev.spawn 0 :: (spawnPhase rest 1 true).1 := by
        simp [spawnPhase, hs]
      rw [htr] at h2 ⊢
      have hmem : Ev.spawn i ∈ (spawnPhase rest 1 true).1 := by
        rcases List.mem_cons.mp h2 with hx | hx
        · simp only [Ev.spawn.injEq] at hx
          omega
        · exact hx
      obtain ⟨pre, post, hp⟩ := spawnPhase_adjacent_close rest 1 i hmem
      exact ⟨Ev.spawn 0 :: pre, post, by simp [hp]⟩
    · have htr : (spawnPhase (s :: rest) 0 false).1 = [] := by simp [spawnPhase, hs]
      rw [htr] at h2
      cases h2

theorem run_trace_decomposition (stages : List Stage)
    (stepNames pvOptions : Option (List String)) (hasSink unlinkOk : Bool) :
    ∃ tail, (run_pipeline stages stepNames pvOptions hasSink unlinkOk).trace
      = nameWarnEvs stages.length stepNames ++ (sinkPreEvs hasSink
        ++ ((spawnPhase stages 0 false).1 ++ tail)) := by
  unfold run_pipeline
  cases hsp : (spawnPhase stages 0 false).2 with
  | some j =>
    simp only [hsp]
    exact ⟨_, rfl⟩
  | none =>
    simp only [hsp]
    exact ⟨_, rfl⟩

/-- Claim C6: for every stage `i > 0` that is spawned, the orchestrator
closes its own handle on the pipe feeding stage `i` immediately after
the spawn (lines 207-214: `stdin_source.close()` directly follows
`Popen`), and this holds on every path — the quantification covers runs
in which a later stage's spawn fails, since the launch loop emits the
close in iteration `i` itself, before any later `Popen` can raise.  The
second conjunct places the launch-loop trace inside every full run's
trace. -/
theorem c6_close_after_spawn (stages : List Stage)
    (stepNames pvOptions : Option (List String)) (hasSink unlinkOk : Bool) (i : Nat)
    (h1 : 1 ≤ i) (h2 : Ev.spawn i ∈ (spawnPhase stages 0 false).1) :
    (∃ pre post, (spawnPhase stages 0 false).1
      = pre ++ Ev.spawn i :: Ev.closeFeedPipe i :: post)
    ∧ (∃ tail, (run_pipeline stages stepNames pvOptions hasSink unlinkOk).trace
      = nameWarnEvs stages.length stepNames ++ (sinkPreEvs hasSink
        ++ ((spawnPhase stages 0 false).1 ++ tail))) :=
  ⟨spawnPhase_top_close stages i h1 h2,
   run_trace_decomposition stages stepNames pvOptions hasSink unlinkOk⟩

/-- A three-stage pipeline whose third stage fails to spawn
(`FileNotFoundError`); stages 0 and 1 launch. -/
def thirdSpawnFails : List Stage :=
  [⟨["zfs", "send"], true, CommEv.normal 0, "", false, true⟩,
   ⟨["pv"], true, CommEv.normal 0, "", false, true⟩,
   ⟨["zstd", "-T0", "-c"], false, CommEv.normal 0, "", false, true⟩]

/-- Witness for C6: in the run where the third stage's spawn fails, the
pipe feeding stage 1 is still closed right after stage 1's spawn. -/
theorem c6_witness :
    ((1:Nat) ≤ 1 ∧ Ev.spawn 1 ∈ (spawnPhase thirdSpawnFails 0 false).1)
    ∧ ((∃ pre post, (spawnPhase thirdSpawnFails 0 false).1
        = pre ++ Ev.spawn 1 :: Ev.closeFeedPipe 1 :: post)
      ∧ (∃ tail, (run_pipeline thirdSpawnFails none none false true).trace
        = nameWarnEvs thirdSpawnFails.length none ++ (sinkPreEvs false
          ++ ((spawnPhase thirdSpawnFails 0 false).1 ++ tail)))) :=
  ⟨⟨by decide, by decide⟩,
   c6_close_after_spawn thirdSpawnFails none none false true 1 (by decide) (by decide)⟩

/-- Claim C8 counterexample: line 180 opens the sink with `open(...,
'wb')` — write-with-truncate — not exclusive creation: on a path whose
file already exists the open succeeds (overwriting) instead of failing
as the claim requires. -/
theorem c8_counterexample :
    openSucceeds openModeUsed true = true
    ∧ openModeUsed ≠ OpenMode.exclusiveCreate := by
  decide

/-- Claim C8 as amended: when an output file is requested the sink is
opened for write with truncation (succeeding, and overwriting, even if
the file already exists) after creating parent directories as needed,
and this happens before any stage — in particular before the last
stage — is spawned; the last stage's standard output is wired to the
sink handle (line 185) while every other stage gets a pipe. -/
theorem c8_sink_opened_before_spawn (stages : List Stage)
    (stepNames pvOptions : Option (List String)) (unlinkOk : Bool) :
    (∃ tail, (run_pipeline stages stepNames pvOptions true unlinkOk).trace
      = nameWarnEvs stages.length stepNames
        ++ (Ev.mkdirParents :: Ev.openSink OpenMode.writeTruncate
          :: ((spawnPhase stages 0 false).1 ++ tail)))
    ∧ openSucceeds openModeUsed true = true
    ∧ stdoutDest true true = OutDest.sinkFile
    ∧ stdoutDest false true = OutDest.pipe := by
  refine ⟨?_, rfl, rfl, rfl⟩
  obtain ⟨tail, ht⟩ := run_trace_decomposition stages stepNames pvOptions true unlinkOk
  exact ⟨tail, by rw [ht]; rfl⟩

/-- A single stage whose executable does not exist (`Popen` raises
`FileNotFoundError`). -/
def spawnFailStage : Stage := ⟨["nonexistent-tool"], false, CommEv.normal 0, "", false, true⟩

/-- Claim C4 counterexample: a run that fails via the
`FileNotFoundError` handler (lines 333-344) with a sink file whose
deletion fails leaves the file in place and reports nothing — the
`unlink` there is wrapped in `except OSError: pass`. -/
theorem c4_counterexample :
    (run_pipeline [spawnFailStage] none none true false).success = false
    ∧ (run_pipeline [spawnFailStage] none none true false).fileExistsAfter = true
    ∧ Ev.warnCouldNotRemove ∉ (run_pipeline [spawnFailStage] none none true false).trace := by
  decide

/-- Claim C4 as amended: when the run used a file sink and returns
`False`, the sink file is gone afterwards unless its deletion failed;
a failed deletion is reported (lines 326-329 print a warning) on the
normal completion path, but on the spawn-failure exception path it is
silently swallowed. -/
theorem c4_cleanup_on_failure (stages : List Stage)
    (stepNames pvOptions : Option (List String)) (unlinkOk : Bool)
    (h : (run_pipeline stages stepNames pvOptions true unlinkOk).success = false) :
    (run_pipeline stages stepNames pvOptions true unlinkOk).fileExistsAfter = false
    ∨ (unlinkOk = false
      ∧ (stages.all (·.spawnOk) = true
        → Ev.warnCouldNotRemove ∈ (run_pipeline stages stepNames pvOptions true unlinkOk).trace)) := by
  cases hsp : (spawnPhase stages 0 false).2 with
  | some j =>
    cases hu : unlinkOk with
    | true =>
      left
      simp [run_pipeline, hsp]
    | false =>
      right
      refine ⟨rfl, fun hall => ?_⟩
      rw [← spawnPhase_snd_none_iff stages 0 false, hsp] at hall
      cases hall
  | none =>
    simp only [run_pipeline, hsp] at h ⊢
    cases hu : unlinkOk with
    | true =>
      left
      simp [h, hu]
    | false =>
      right
      refine ⟨rfl, fun _ => ?_⟩
      simp [h, hu]

/-- Witness for C4 on the normal completion path: a single stage exits
with code 1, the sink file's deletion fails, and the failure is
reported via the could-not-remove warning. -/
theorem c4_witness :
    ((run_pipeline [⟨["zfs", "send"], true, CommEv.normal 1, "", false, true⟩]
        none none true false).success = false)
    ∧ ((run_pipeline [⟨["zfs", "send"], true, CommEv.normal 1, "", false, true⟩]
        none none true false).fileExistsAfter = false
      ∨ (false = false
        ∧ (([(⟨["zfs", "send"], true, CommEv.normal 1, "", false, true⟩ : Stage)]).all (·.spawnOk) = true
          → Ev.warnCouldNotRemove ∈ (run_pipeline
              [⟨["zfs", "send"], true, CommEv.normal 1, "", false, true⟩]
              none none true false).trace))) :=
  ⟨by decide,
   c4_cleanup_on_failure [⟨["zfs", "send"], true, CommEv.normal 1, "", false, true⟩]
     none none false (by decide)⟩

theorem waitLoop_no_terminate (ins : List WaitIn) (idx i : Nat) :
    Ev.terminate i ∉ (waitLoop ins idx).trace := by
  induction ins generalizing idx with
  | nil => simp [waitLoop]
  | cons w rest ih =>
    rcases w with ⟨cap, comm, sd⟩
    cases comm with
    | normal rc =>
      intro hmem
      simp only [waitLoop, List.mem_append] at hmem
      rcases hmem with hx | hx
      · split_ifs at hx <;> simp at hx
      · exact ih (idx + 1) hx
    | timeoutExpired rck =>
      simp [waitLoop]
    | commError rcNow =>
      intro hmem
      simp only [waitLoop, List.mem_cons] at hmem
      rcases hmem with hx | hx
      · simp at hx
      · exact ih (idx + 1) hx

theorem waitLoop_timeout_kills (ins : List WaitIn) (idx k : Nat)
    (h : firstTimeout ins = some k) :
    Ev.kill (idx + k) ∈ (waitLoop ins idx).trace
    ∧ (waitLoop ins idx).success = false
    ∧ (waitLoop ins idx).timedOut = true := by
  induction ins generalizing idx k with
  | nil => cases h
  | cons w rest ih =>
    rcases w with ⟨cap, comm, sd⟩
    cases comm with
    | normal rc =>
      have hmap : (firstTimeout rest).map (· + 1) = some k := h
      rcases hk : firstTimeout rest with _ | k'
      · rw [hk] at hmap
        cases hmap
      · rw [hk] at hmap
        have hkk : k' + 1 = k := by
          simpa using hmap
        obtain ⟨hmem, hsucc, htim⟩ := ih (idx + 1) k' hk
        refine ⟨?_, ?_, ?_⟩
        · simp only [waitLoop, List.mem_append]
          right
          have harith : idx + k = (idx + 1) + k' := by omega
          rw [harith]
          exact hmem
        · simp only [waitLoop, hsucc, Bool.and_false]
        · simpa only [waitLoop] using htim
    | timeoutExpired rck =>
      have hk : (some 0 : Option Nat) = some k := h
      have hk0 : k = 0 := by
        cases hk
        rfl
      subst hk0
      simp [waitLoop]
    | commError rcNow =>
      have hmap : (firstTimeout rest).map (· + 1) = some k := h
      rcases hk : firstTimeout rest with _ | k'
      · rw [hk] at hmap
        cases hmap
      · rw [hk] at hmap
        have hkk : k' + 1 = k := by
          simpa using hmap
        obtain ⟨hmem, hsucc, htim⟩ := ih (idx + 1) k' hk
        refine ⟨?_, rfl, ?_⟩
        · simp only [waitLoop, List.mem_cons]
          right
          have harith : idx + k = (idx + 1) + k' := by omega
          rw [harith]
          exact hmem
        · simpa only [waitLoop] using htim

theorem cleanupLoop_kill_graceful_first (stages : List Stage) (processed idx i : Nat)
    (h : Ev.kill i ∈ cleanupLoop stages processed idx) :
    ∃ pre post, cleanupLoop stages processed idx
      = pre ++ Ev.terminate i :: Ev.graceWait i :: Ev.warnKillAfterGrace i
          :: Ev.kill i :: post := by
  induction stages generalizing idx with
  | nil => cases h
  | cons s rest ih =>
    have hstep : cleanupLoop (s :: rest) processed idx
        = cleanupStage idx ((decide (processed ≤ idx)) && s.stillRunningAtCleanup)
            s.gracefulStopOk ++ cleanupLoop rest processed (idx + 1) := rfl
    rw [hstep] at h ⊢
    by_cases hrun : ((decide (processed ≤ idx)) && s.stillRunningAtCleanup) = true
    · by_cases hg : s.gracefulStopOk = true
      · have hhead : cleanupStage idx ((decide (processed ≤ idx)) && s.stillRunningAtCleanup)
            s.gracefulStopOk = [Ev.terminate idx, Ev.graceWait idx] := by
          simp [cleanupStage, hrun, hg]
        rw [hhead] at h ⊢
        have hmem : Ev.kill i ∈ cleanupLoop rest processed (idx + 1) := by
          rcases List.mem_append.mp h with hx | hx
          · simp at hx
          · exact hx
        obtain ⟨pre, post, hp⟩ := ih (idx + 1) hmem
        exact ⟨[Ev.terminate idx, Ev.graceWait idx] ++ pre, post, by simp [hp]⟩
      · have hhead : cleanupStage idx ((decide (processed ≤ idx)) && s.stillRunningAtCleanup)
            s.gracefulStopOk = [Ev.terminate idx, Ev.graceWait idx,
              Ev.warnKillAfterGrace idx, Ev.kill idx] := by
          simp [cleanupStage, hrun, hg]
        rw [hhead] at h ⊢
        by_cases hi : i = idx
        · refine ⟨[], cleanupLoop rest processed (idx + 1), ?_⟩
          rw [hi]
          simp
        · have hmem : Ev.kill i ∈ cleanupLoop rest processed (idx + 1) := by
            rcases List.mem_append.mp h with hx | hx
            · simp at hx
              exact absurd hx hi
            · exact hx
          obtain ⟨pre, post, hp⟩ := ih (idx + 1) hmem
          exact ⟨[Ev.terminate idx, Ev.graceWait idx, Ev.warnKillAfterGrace idx,
            Ev.kill idx] ++ pre, post, by simp [hp]⟩
    · have hhead : cleanupStage idx ((decide (processed ≤ idx)) && s.stillRunningAtCleanup)
          s.gracefulStopOk = [] := by
        simp [cleanupStage, hrun]
      rw [hhead] at h ⊢
      simp only [List.nil_append] at h ⊢
      exact ih (idx + 1) h

/-- A single stage whose `communicate` raises `TimeoutExpired`. -/
def timeoutStage : Stage := ⟨["zfs", "send"], true, CommEv.timeoutExpired none, "", false, true⟩

/-- Claim C7 counterexample: on a per-stage timeout (lines 254-256) the
orchestrator calls `proc.kill()` immediately — the run's trace contains
a forced kill of stage 0 with no graceful-termination attempt anywhere,
refuting "a forced kill is never issued without a preceding
graceful-termination attempt". -/
theorem c7_counterexample :
    Ev.kill 0 ∈ (run_pipeline [timeoutStage] none none false true).trace
    ∧ Ev.terminate 0 ∉ (run_pipeline [timeoutStage] none none false true).trace := by
  decide

/-- Claim C7 as amended: when a stage's wait exceeds its timeout the
orchestrator kills the process immediately (no graceful-termination
signal first), records the run as failed and timed out, and stops
waiting on later stages; the wait loop never issues a graceful
terminate.  The graceful sequence — terminate, fixed 5-second grace
wait, then (only if the process survived) a warning and a forced
kill — is applied solely in the post-wait cleanup pass to processes
still running there. -/
theorem c7_timeout_kills_immediately (ins : List WaitIn) (idx k i : Nat)
    (stages : List Stage) (processed cidx j : Nat)
    (h1 : firstTimeout ins = some k)
    (h2 : Ev.kill j ∈ cleanupLoop stages processed cidx) :
    (Ev.kill (idx + k) ∈ (waitLoop ins idx).trace
      ∧ (waitLoop ins idx).success = false
      ∧ (waitLoop ins idx).timedOut = true
      ∧ Ev.terminate i ∉ (waitLoop ins idx).trace)
    ∧ (∃ pre post, cleanupLoop stages processed cidx
        = pre ++ Ev.terminate j :: Ev.graceWait j :: Ev.warnKillAfterGrace j
            :: Ev.kill j :: post) :=
  ⟨⟨(waitLoop_timeout_kills ins idx k h1).1,
    (waitLoop_timeout_kills ins idx k h1).2.1,
    (waitLoop_timeout_kills ins idx k h1).2.2,
    waitLoop_no_terminate ins idx i⟩,
   cleanupLoop_kill_graceful_first stages processed cidx j h2⟩

/-- A stage still running when the cleanup pass reaches it, whose
graceful termination fails. -/
def stubbornStage : Stage := ⟨["zfs", "send"], true, CommEv.normal 0, "", true, false⟩

/-- Witness for C7 at concrete inputs: a timed-out one-stage wait loop,
and a cleanup pass over one still-running stage that resists graceful
termination. -/
theorem c7_witness :
    (Ev.kill (0 + 0) ∈ (waitLoop [⟨true, CommEv.timeoutExpired none, ""⟩] 0).trace
      ∧ (waitLoop [⟨true, CommEv.timeoutExpired none, ""⟩] 0).success = false
      ∧ (waitLoop [⟨true, CommEv.timeoutExpired none, ""⟩] 0).timedOut = true
      ∧ Ev.terminate 0 ∉ (waitLoop [⟨true, CommEv.timeoutExpired none, ""⟩] 0).trace)
    ∧ (∃ pre post, cleanupLoop [stubbornStage] 0 0
        = pre ++ Ev.terminate 0 :: Ev.graceWait 0 :: Ev.warnKillAfterGrace 0
            :: Ev.kill 0 :: post) :=
  c7_timeout_kills_immediately [⟨true, CommEv.timeoutExpired none, ""⟩] 0 0 0
    [stubbornStage] 0 0 0 (by decide) (by decide)

theorem processedCount_le (ins : List WaitIn) : processedCount ins ≤ ins.length := by
  induction ins with
  | nil => exact Nat.le_refl 0
  | cons w rest ih =>
    rcases w with ⟨cap, comm, sd⟩
    cases comm with
    | normal rc =>
      simp only [processedCount, List.length_cons]
      omega
    | timeoutExpired rck =>
      simp only [processedCount, List.length_cons]
      omega
    | commError rcNow =>
      simp only [processedCount, List.length_cons]
      omega

theorem waitLoop_rcs_eq (ins : List WaitIn) (idx : Nat) :
    (waitLoop ins idx).rcs
      = (ins.take (processedCount ins)).map (fun w => some (rcFromComm w.comm)) := by
  induction ins generalizing idx with
  | nil => rfl
  | cons w rest ih =>
    rcases w with ⟨cap, comm, sd⟩
    cases comm with
    | normal rc =>
      simp only [waitLoop, processedCount, List.take_succ_cons, List.map_cons]
      rw [ih (idx + 1)]
      rfl
    | timeoutExpired rck =>
      simp [waitLoop, processedCount, rcFromComm]
    | commError rcNow =>
      simp only [waitLoop, processedCount, List.take_succ_cons, List.map_cons]
      rw [ih (idx + 1)]
      rfl

theorem waitLoop_rcs_length (ins : List WaitIn) (idx : Nat) :
    (waitLoop ins idx).rcs.length = processedCount ins := by
  rw [waitLoop_rcs_eq, List.length_map, List.length_take]
  exact Nat.min_eq_left (processedCount_le ins)

theorem waitLoop_stderrs_length (ins : List WaitIn) (idx : Nat) :
    (waitLoop ins idx).stderrs.length = processedCount ins := by
  induction ins generalizing idx with
  | nil => rfl
  | cons w rest ih =>
    rcases w with ⟨cap, comm, sd⟩
    cases comm with
    | normal rc =>
      simp only [waitLoop, processedCount, List.length_cons]
      rw [ih (idx + 1)]
    | timeoutExpired rck =>
      simp [waitLoop, processedCount]
    | commError rcNow =>
      simp only [waitLoop, processedCount, List.length_cons]
      rw [ih (idx + 1)]

/-- A two-descriptor pipeline whose second stage fails to spawn. -/
def secondSpawnFails : List Stage :=
  [⟨["zfs", "send"], true, CommEv.normal 0, "", false, true⟩,
   ⟨["no-such-tool"], false, CommEv.normal 0, "", false, true⟩]

/-- Claim C5 counterexample: when a stage's spawn fails the
orchestrator aborts through the `FileNotFoundError` handler and returns
only the bare failure flag — the run has no per-stage outcome entries
at all (empty return-code and stderr lists for two stage descriptors),
so the "one outcome entry per stage descriptor regardless of spawn
failure" guarantee does not hold. -/
theorem c5_counterexample :
    (run_pipeline secondSpawnFails none none false true).returnCodes = []
    ∧ (run_pipeline secondSpawnFails none none false true).stderrOutputs = []
    ∧ secondSpawnFails.length = 2 := by
  decide

/-- Claim C5 as amended: on every run in which all stages spawn, the
per-stage return-code and stderr lists contain exactly one entry per
stage descriptor, in stage index order — the first `processedCount`
entries are the codes recorded by the wait loop for stages 0, 1, … in
order, and entries for stages never reached after a timeout `break` are
padded (`None` / placeholder text) up to the stage count (lines
279-280).  Runs aborted by a spawn failure return only a failure flag
with no per-stage entries. -/
theorem c5_entries_in_stage_order (stages : List Stage)
    (stepNames pvOptions : Option (List String)) (hasSink unlinkOk : Bool)
    (h : stages.all (·.spawnOk) = true) :
    (run_pipeline stages stepNames pvOptions hasSink unlinkOk).returnCodes
      = ((stages.map toWaitIn).take (processedCount (stages.map toWaitIn))).map
          (fun w => some (rcFromComm w.comm))
        ++ List.replicate (stages.length - processedCount (stages.map toWaitIn)) none
    ∧ (run_pipeline stages stepNames pvOptions hasSink unlinkOk).returnCodes.length
        = stages.length
    ∧ (run_pipeline stages stepNames pvOptions hasSink unlinkOk).stderrOutputs.length
        = stages.length := by
  have hsp : (spawnPhase stages 0 false).2 = none :=
    (spawnPhase_snd_none_iff stages 0 false).mpr h
  have hpc : processedCount (stages.map toWaitIn) ≤ stages.length := by
    have := processedCount_le (stages.map toWaitIn)
    simpa using this
  have hrcl : (waitLoop (stages.map toWaitIn) 0).rcs.length
      = processedCount (stages.map toWaitIn) := waitLoop_rcs_length _ 0
  have hstl : (waitLoop (stages.map toWaitIn) 0).stderrs.length
      = processedCount (stages.map toWaitIn) := waitLoop_stderrs_length _ 0
  have hlen2 : (List.map (fun w => some (rcFromComm w.comm))
      (List.take (processedCount (stages.map toWaitIn)) (stages.map toWaitIn))).length
      = processedCount (stages.map toWaitIn) := by
    rw [List.length_map, List.length_take]
    exact Nat.min_eq_left (processedCount_le (stages.map toWaitIn))
  refine ⟨?_, ?_, ?_⟩
  · simp only [run_pipeline, hsp, padTo]
    rw [waitLoop_rcs_eq, hlen2]
  · simp only [run_pipeline, hsp, padTo, List.length_append, List.length_replicate, hrcl]
    omega
  · simp only [run_pipeline, hsp, padStr, List.length_append, List.length_replicate, hstl]
    omega

/-- Witness for C5: a three-stage run whose second stage times out; the
lists still have one entry per descriptor, the third being padding. -/
theorem c5_witness :
    (([(⟨["zfs", "send"], true, CommEv.normal 0, "", false, true⟩ : Stage),
       ⟨["pv"], true, CommEv.timeoutExpired none, "", false, true⟩,
       ⟨["zfs", "recv"], true, CommEv.normal 0, "", true, true⟩]).all (·.spawnOk) = true)
    ∧ ((run_pipeline
        [⟨["zfs", "send"], true, CommEv.normal 0, "", false, true⟩,
         ⟨["pv"], true, CommEv.timeoutExpired none, "", false, true⟩,
         ⟨["zfs", "recv"], true, CommEv.normal 0, "", true, true⟩]
        none none false true).returnCodes.length = 3) :=
  ⟨by decide,
   (c5_entries_in_stage_order
     [⟨["zfs", "send"], true, CommEv.normal 0, "", false, true⟩,
      ⟨["pv"], true, CommEv.timeoutExpired none, "", false, true⟩,
      ⟨["zfs", "recv"], true, CommEv.normal 0, "", true, true⟩]
     none none false true (by decide)).2.1⟩

theorem waitLoop_warnSigpipe_lb (ins : List WaitIn) (idx j : Nat)
    (h : Ev.warnSigpipe j ∈ (waitLoop ins idx).trace) : idx ≤ j := by
  induction ins generalizing idx with
  | nil => cases h
  | cons w rest ih =>
    rcases w with ⟨cap, comm, sd⟩
    cases comm with
    | normal rc =>
      simp only [waitLoop, List.mem_append] at h
      rcases h with hx | hx
      · split_ifs at hx <;> simp at hx
        omega
      · have := ih (idx + 1) hx
        omega
    | timeoutExpired rck =>
      simp only [waitLoop] at h
      simp at h
    | commError rcNow =>
      simp only [waitLoop, List.mem_cons] at h
      rcases h with hx | hx
      · simp at hx
      · have := ih (idx + 1) hx
        omega

theorem waitLoop_errFailedAt_lb (ins : List WaitIn) (idx j : Nat)
    (h : Ev.errFailedAt j ∈ (waitLoop ins idx).trace) : idx ≤ j := by
  induction ins generalizing idx with
  | nil => cases h
  | cons w rest ih =>
    rcases w with ⟨cap, comm, sd⟩
    cases comm with
    | normal rc =>
      simp only [waitLoop, List.mem_append] at h
      rcases h with hx | hx
      · split_ifs at hx <;> simp at hx
        omega
      · have := ih (idx + 1) hx
        omega
    | timeoutExpired rck =>
      simp only [waitLoop] at h
      simp at h
    | commError rcNow =>
      simp only [waitLoop, List.mem_cons] at h
      rcases h with hx | hx
      · simp at hx
      · have := ih (idx + 1) hx
        omega

theorem waitLoop_warnSigpipe_mem (ins : List WaitIn) (idx i : Nat) (hi : i < ins.length)
    (hall : ins.all (fun w => isNormalComm w.comm) = true) :
    (Ev.warnSigpipe (idx + i) ∈ (waitLoop ins idx).trace)
    ↔ isSigpipeComm (ins.get ⟨i, hi⟩).comm = true := by
  induction ins generalizing idx i with
  | nil => exact absurd hi (Nat.not_lt_zero i)
  | cons w rest ih =>
    rcases w with ⟨cap, comm, sd⟩
    simp only [List.all_cons, Bool.and_eq_true] at hall
    cases comm with
    | normal rc =>
      cases i with
      | zero =>
        simp only [Nat.add_zero, List.get_cons_zero]
        simp only [waitLoop, List.mem_append]
        constructor
        · rintro (hx | hx)
          · split_ifs at hx with h0 h13
            · simp at hx
            · exact h13
            · simp at hx
          · exact absurd (waitLoop_warnSigpipe_lb rest (idx + 1) idx hx) (by omega)
        · intro hval
          left
          have h13 : ((rc == (-13:Int)) : Bool) = true := hval
          have hrc : rc = -13 := eq_of_beq h13
          subst hrc
          have e0 : (((-13:Int) == 0) : Bool) = false := rfl
          simp [e0]
      | succ iPrev =>
        have hiPrev : iPrev < rest.length := by
          simpa using hi
        simp only [List.get_cons_succ]
        simp only [waitLoop, List.mem_append]
        have harith : idx + (iPrev + 1) = (idx + 1) + iPrev := by omega
        rw [harith]
        constructor
        · rintro (hx | hx)
          · exfalso
            split_ifs at hx <;> simp at hx
            omega
          · exact (ih (idx + 1) iPrev hiPrev hall.2).mp hx
        · intro hval
          right
          exact (ih (idx + 1) iPrev hiPrev hall.2).mpr hval
    | timeoutExpired rck => exact absurd hall.1 (by simp [isNormalComm])
    | commError rcNow => exact absurd hall.1 (by simp [isNormalComm])

theorem waitLoop_errFailedAt_mem (ins : List WaitIn) (idx i : Nat) (hi : i < ins.length)
    (hall : ins.all (fun w => isNormalComm w.comm) = true) :
    (Ev.errFailedAt (idx + i) ∈ (waitLoop ins idx).trace)
    ↔ isHardFailComm (ins.get ⟨i, hi⟩).comm = true := by
  induction ins generalizing idx i with
  | nil => exact absurd hi (Nat.not_lt_zero i)
  | cons w rest ih =>
    rcases w with ⟨cap, comm, sd⟩
    simp only [List.all_cons, Bool.and_eq_true] at hall
    cases comm with
    | normal rc =>
      cases i with
      | zero =>
        simp only [Nat.add_zero, List.get_cons_zero]
        simp only [waitLoop, List.mem_append]
        constructor
        · rintro (hx | hx)
          · split_ifs at hx with h0 h13
            · simp at hx
            · simp at hx
            · simp only [Bool.not_eq_true] at h0 h13
              simp [isHardFailComm, h0, h13]
          · exact absurd (waitLoop_errFailedAt_lb rest (idx + 1) idx hx) (by omega)
        · intro hval
          left
          have hvalB : ((!(rc == (0:Int)) && !(rc == (-13:Int))) : Bool) = true := hval
          have hr0 : ¬ rc = 0 := by
            intro hc
            subst hc
            simp at hvalB
          have hr13 : ¬ rc = -13 := by
            intro hc
            subst hc
            simp at hvalB
          simp [hr0, hr13]
      | succ iPrev =>
        have hiPrev : iPrev < rest.length := by
          simpa using hi
        simp only [List.get_cons_succ]
        simp only [waitLoop, List.mem_append]
        have harith : idx + (iPrev + 1) = (idx + 1) + iPrev := by omega
        rw [harith]
        constructor
        · rintro (hx | hx)
          · exfalso
            split_ifs at hx <;> simp at hx
            omega
          · exact (ih (idx + 1) iPrev hiPrev hall.2).mp hx
        · intro hval
          right
          exact (ih (idx + 1) iPrev hiPrev hall.2).mpr hval
    | timeoutExpired rck => exact absurd hall.1 (by simp [isNormalComm])
    | commError rcNow => exact absurd hall.1 (by simp [isNormalComm])

/-- A single stage that dies of SIGPIPE with no downstream stage at all. -/
def sigpipeOnlyStage : Stage := ⟨["zfs", "send"], true, CommEv.normal (-13), "", false, true⟩

/-- Claim C2 counterexample: a one-stage pipeline whose only stage dies
of a broken pipe.  Under the §4.4 policy this `BrokenPipe` is *not*
collateral (there is no downstream stage, so it is itself the
`primaryFailure`), yet the code still treats it leniently: it prints
only the SIGPIPE warning, reports no pipeline failure at any stage, and
leaves the wait loop's `success` flag `true`.  The code's lenient
treatment is unconditional, not "exactly when at least one downstream
stage has a non-Success, non-collateral outcome". -/
theorem c2_counterexample :
    specCollateralFlags [ExitClass.brokenPipe] = [false]
    ∧ specPrimaryFailure [ExitClass.brokenPipe] = some 0
    ∧ ([sigpipeOnlyStage].map (fun s => classOfComm s.comm)) = [ExitClass.brokenPipe]
    ∧ Ev.warnSigpipe 0 ∈ (run_pipeline [sigpipeOnlyStage] none none false true).trace
    ∧ Ev.errFailedAt 0 ∉ (run_pipeline [sigpipeOnlyStage] none none false true).trace
    ∧ (waitLoop [toWaitIn sigpipeOnlyStage] 0).success = true := by
  decide

/-- The claim's 3-stage scenario: stage 0 dies of SIGPIPE, stage 1
exits with code 1, stage 2 succeeds. -/
def collateralScenario : List Stage :=
  [⟨["zfs", "send"], true, CommEv.normal (-13), "", false, true⟩,
   ⟨["zstd", "-T0", "-c"], true, CommEv.normal 1, "", false, true⟩,
   ⟨["zfs", "recv"], true, CommEv.normal 0, "", false, true⟩]

/-- Claim C2 as amended: the wait loop treats a stage's SIGPIPE exit
(`rc == -13`) leniently — a warning instead of a failure report —
unconditionally, regardless of downstream outcomes, and emits a
pipeline-failure report for exactly the stages with a non-zero,
non-SIGPIPE exit (so the lowest-index failure report names the
lowest-index such stage).  In the claim's 3-stage scenario the failure
report indeed names stage 1 while stage 0 receives only the SIGPIPE
warning (and the §4.4 policy agrees there: stage 0 is collateral and
the primary failure is stage 1); the returned success is nonetheless
`false`. -/
theorem c2_sigpipe_lenient_unconditionally (ins : List WaitIn) (idx i : Nat)
    (hi : i < ins.length) (hall : ins.all (fun w => isNormalComm w.comm) = true) :
    ((Ev.warnSigpipe (idx + i) ∈ (waitLoop ins idx).trace)
      ↔ isSigpipeComm (ins.get ⟨i, hi⟩).comm = true)
    ∧ ((Ev.errFailedAt (idx + i) ∈ (waitLoop ins idx).trace)
      ↔ isHardFailComm (ins.get ⟨i, hi⟩).comm = true)
    ∧ (Ev.errFailedAt 1 ∈ (run_pipeline collateralScenario none none false true).trace
      ∧ Ev.warnSigpipe 0 ∈ (run_pipeline collateralScenario none none false true).trace
      ∧ Ev.errFailedAt 0 ∉ (run_pipeline collateralScenario none none false true).trace
      ∧ Ev.errFailedAt 2 ∉ (run_pipeline collateralScenario none none false true).trace
      ∧ (run_pipeline collateralScenario none none false true).success = false
      ∧ specPrimaryFailure (collateralScenario.map (fun s => classOfComm s.comm)) = some 1
      ∧ specCollateralFlags (collateralScenario.map (fun s => classOfComm s.comm))
          = [true, false, false]) :=
  ⟨waitLoop_warnSigpipe_mem ins idx i hi hall,
   waitLoop_errFailedAt_mem ins idx i hi hall,
   by decide⟩

/-- Witness for C2 at a concrete wait-loop input: stage 0 dies of
SIGPIPE (warned, not reported) even though its only downstream stage
succeeds. -/
theorem c2_witness :
    ((Ev.warnSigpipe (0 + 0) ∈
        (waitLoop [⟨true, CommEv.normal (-13), ""⟩, ⟨true, CommEv.normal 0, ""⟩] 0).trace)
      ↔ isSigpipeComm (([(⟨true, CommEv.normal (-13), ""⟩ : WaitIn),
          ⟨true, CommEv.normal 0, ""⟩]).get ⟨0, by decide⟩).comm = true)
    ∧ ((Ev.errFailedAt (0 + 0) ∈
        (waitLoop [⟨true, CommEv.normal (-13), ""⟩, ⟨true, CommEv.normal 0, ""⟩] 0).trace)
      ↔ isHardFailComm (([(⟨true, CommEv.normal (-13), ""⟩ : WaitIn),
          ⟨true, CommEv.normal 0, ""⟩]).get ⟨0, by decide⟩).comm = true)
    ∧ (Ev.errFailedAt 1 ∈ (run_pipeline collateralScenario none none false true).trace
      ∧ Ev.warnSigpipe 0 ∈ (run_pipeline collateralScenario none none false true).trace
      ∧ Ev.errFailedAt 0 ∉ (run_pipeline collateralScenario none none false true).trace
      ∧ Ev.errFailedAt 2 ∉ (run_pipeline collateralScenario none none false true).trace
      ∧ (run_pipeline collateralScenario none none false true).success = false
      ∧ specPrimaryFailure (collateralScenario.map (fun s => classOfComm s.comm)) = some 1
      ∧ specCollateralFlags (collateralScenario.map (fun s => classOfComm s.comm))
          = [true, false, false]) :=
  c2_sigpipe_lenient_unconditionally
    [⟨true, CommEv.normal (-13), ""⟩, ⟨true, CommEv.normal 0, ""⟩] 0 0
    (by decide) (by decide)

end PveZfsUtility
